import Mathlib

/-!
Verification development for the merge-with-label bot.

The definitions below are a shallow embedding of the Go sources:

* `pkg/merge-with-label/common/types.go` (regex-entry matching),
* `pkg/merge-with-label/common/common.go` (`QueueMessage`, the rate-limit gate),
* `pkg/merge-with-label/worker/` (`push_woker.go`, `status_woker.go`,
  `pull_request_worker.go`, `should_skip.go`, `check_runs.go`,
  the access-token cache, and `handleMessage` in `worker.go`).

Times are modelled as `Int` seconds (Go's `time.Time` compared with
`Before`/`Until` at second granularity), remote HTTP/GraphQL calls as
oracle parameters holding whatever the call would return, and the NATS
key/value buckets as association lists.  Cryptographic digests (`sha512`
for KV keys, `md5` for the message id) are modelled by injective tagging
functions: the code relies only on the digest being a deterministic
function of its input, never on its bit pattern.
-/

namespace MergeWithLabel

/-! ## common/types.go : regex entries -/

/-- `common.RegexItem`: the entry text together with the compiled regular
expression. The compiled `regexp.Regexp` is modelled by its matching
function `matchesRegex`. -/
structure RegexItem where
  text : String
  matchesRegex : String → Bool

/-- `strings.EqualFold`: equality of two strings under simple case folding
(modelled with character-wise `Char.toLower`). -/
def eqFold (a b : String) : Bool :=
  a.data.map Char.toLower == b.data.map Char.toLower

/-- `RegexItem.Equal`: `s` matches the entry iff it equals the entry text
under case folding or the compiled regex matches `s`. -/
def RegexItem.Equal (e : RegexItem) (s : String) : Bool :=
  eqFold s e.text || e.matchesRegex s

/-- `common.RegexSlice`. -/
abbrev RegexSlice := List RegexItem

/-- `RegexSlice.Strings`: the list of entry texts. -/
def RegexSlice.Strings (sl : RegexSlice) : List String :=
  sl.map RegexItem.text

/-- Inner loop of `RegexSlice.ContainsOneOf`: the first entry of `sl`
whose `Equal` holds for `item`. The Go code returns `re.Text` from inside
the nested loops on that first match — even when the text is empty — so
the fired entry itself is captured here, not just its text. -/
def RegexSlice.findMatch (sl : RegexSlice) (item : String) : Option RegexItem :=
  match sl with
  | [] => none
  | e :: rest => if e.Equal item then some e else RegexSlice.findMatch rest item

/-- `RegexSlice.ContainsOneOf`: scans `items` in order and, inside, the
entries in order; the text of the first matching (item, entry) pair is
returned immediately — even when that text is empty — and the empty
string when nothing matches. -/
def RegexSlice.ContainsOneOf (sl : RegexSlice) (items : List String) : String :=
  match items with
  | [] => ""
  | item :: rest =>
    match sl.findMatch item with
    | some e => e.text
    | none => sl.ContainsOneOf rest

theorem findMatch_none_iff (sl : RegexSlice) (item : String) :
    sl.findMatch item = none ↔ ∀ e ∈ sl, e.Equal item = false := by
  induction sl with
  | nil => simp [RegexSlice.findMatch]
  | cons e rest ih =>
    rw [RegexSlice.findMatch]
    by_cases he : e.Equal item = true
    · rw [if_pos he]
      constructor
      · intro h
        exact absurd h (by simp)
      · intro h
        have h2 := h e (List.mem_cons_self e rest)
        rw [he] at h2
        exact absurd h2 (by simp)
    · have he2 : e.Equal item = false := by
        cases h : e.Equal item
        · rfl
        · exact absurd h he
      rw [if_neg he, ih]
      constructor
      · intro h x hx
        rcases List.mem_cons.mp hx with h1 | h1
        · subst h1
          exact he2
        · exact h x h1
      · intro h x hx
        exact h x (List.mem_cons_of_mem e hx)

theorem findMatch_some_spec (sl : RegexSlice) (item : String) (e : RegexItem)
    (h : sl.findMatch item = some e) : e ∈ sl ∧ e.Equal item = true := by
  induction sl with
  | nil => simp [RegexSlice.findMatch] at h
  | cons x rest ih =>
    rw [RegexSlice.findMatch] at h
    by_cases hx : x.Equal item = true
    · rw [if_pos hx] at h
      injection h with h
      subst h
      exact ⟨List.mem_cons_self x rest, hx⟩
    · rw [if_neg hx] at h
      have h2 := ih h
      exact ⟨List.mem_cons_of_mem x h2.1, h2.2⟩

theorem containsOneOf_ne_empty_iff (sl : RegexSlice) (items : List String)
    (hne : ∀ e ∈ sl, e.text ≠ "") :
    sl.ContainsOneOf items ≠ "" ↔ ∃ i ∈ items, ∃ e ∈ sl, e.Equal i = true := by
  induction items with
  | nil => simp [RegexSlice.ContainsOneOf]
  | cons item rest ih =>
    rw [RegexSlice.ContainsOneOf]
    cases hf : sl.findMatch item with
    | none =>
      have hnone := (findMatch_none_iff sl item).mp hf
      rw [ih]
      constructor
      · intro ⟨i, hi, he⟩
        exact ⟨i, List.mem_cons_of_mem item hi, he⟩
      · intro ⟨i, hi, e, hmem, heq⟩
        rcases List.mem_cons.mp hi with h1 | h1
        · subst h1
          rw [hnone e hmem] at heq
          exact absurd heq (by simp)
        · exact ⟨i, h1, e, hmem, heq⟩
    | some e =>
      have hs := findMatch_some_spec sl item e hf
      constructor
      · intro _
        exact ⟨item, List.mem_cons_self item rest, e, hs.1, hs.2⟩
      · intro _
        exact hne e hs.1

/-! ## status_woker.go (config part) : policy configuration -/

/-- `worker.IgnoreConfig`. In the Go source `ignoreWithLabels` is an
unexported field (lower-case initial), unlike `IgnoreFromUsers` and
`IgnoreWithTitles`; the capitalisation is mirrored in the field comments
below and matters for YAML decoding (see `unmarshalIgnoreConfig`). -/
structure IgnoreConfig where
  ignoreFromUsers : RegexSlice    -- exported `IgnoreFromUsers`
  ignoreWithTitles : RegexSlice   -- exported `IgnoreWithTitles`
  ignoreWithLabels : RegexSlice   -- unexported `ignoreWithLabels`

/-- `IgnoreConfig.IsUserIgnored`. -/
def IgnoreConfig.IsUserIgnored (c : IgnoreConfig) (s : String) : String :=
  c.ignoreFromUsers.ContainsOneOf [s]

/-- `IgnoreConfig.IsTitleIgnored`. -/
def IgnoreConfig.IsTitleIgnored (c : IgnoreConfig) (s : String) : String :=
  c.ignoreWithTitles.ContainsOneOf [s]

/-- `IgnoreConfig.IsLabelIgnored`. -/
def IgnoreConfig.IsLabelIgnored (c : IgnoreConfig) (s : String) : String :=
  c.ignoreWithLabels.ContainsOneOf [s]

/-- `worker.MergeConfigV1`. -/
structure MergeConfigV1 where
  labels : RegexSlice
  strategy : String
  requiredApprovals : Nat
  requireApprovalsFrom : RegexSlice
  requiredChecks : RegexSlice
  requireLinearHistory : Bool
  deleteBranch : Bool
  ignore : IgnoreConfig

/-- `worker.UpdateConfigV1`. -/
structure UpdateConfigV1 where
  labels : RegexSlice
  ignore : IgnoreConfig

/-- `worker.ConfigV1` (header version field omitted: all modelled configs
are version 1, the only version `parseConfig` accepts). -/
structure ConfigV1 where
  merge : MergeConfigV1
  update : UpdateConfigV1

/-- `MergeStrategy.GithubString`: maps the YAML strategy word to the
GraphQL merge-method enum. -/
def githubStrategyString (s : String) : String :=
  if s = "commit" then "MERGE"
  else if s = "squash" then "SQUASH"
  else if s = "rebase" then "REBASE"
  else ""

/-- The ignore section as it stands in a YAML policy file: three lists of
regex entries under the keys `ignoreFromUsers`, `ignoreWithTitles` and
`ignoreWithLabels`. -/
structure YamlIgnoreSection where
  ignoreFromUsers : RegexSlice
  ignoreWithTitles : RegexSlice
  ignoreWithLabels : RegexSlice

/-- YAML decoding of `worker.IgnoreConfig` by `gopkg.in/yaml.v3` (used by
`parseConfig`): the exported fields `IgnoreFromUsers` and
`IgnoreWithTitles` receive the file values, but `ignoreWithLabels` is an
unexported Go struct field, and the yaml.v3 decoder cannot set unexported
fields, so it is left at its zero value (the empty slice) no matter what
the file says. -/
def unmarshalIgnoreConfig (y : YamlIgnoreSection) : IgnoreConfig :=
  { ignoreFromUsers := y.ignoreFromUsers
    ignoreWithTitles := y.ignoreWithTitles
    ignoreWithLabels := [] }

/-! ## github/github.go : the pull-request detail snapshot -/

/-- `github.PullRequestDetails`. `lastCommitTime` is in seconds and uses
`0` for Go's zero `time.Time` (the `IsZero` sentinel); `checkStates` is
the Go `map[string]string` modelled as an association list. -/
structure PullRequestDetails where
  aheadBy : Nat
  approvedBy : List String
  author : String
  baseRefName : String
  checkStates : List (String × String)
  hasConflicts : Bool
  headRefID : String
  headRefName : String
  id : String
  isMergeable : Bool
  labels : List String
  lastCommitSha : String
  lastCommitTime : Int
  state : String
  title : String

/-! ## should_skip.go : skip-condition evaluator -/

/-- `worker.shouldSkipResult`. -/
structure ShouldSkipResult where
  skipAction : Bool
  title : String
  summary : String
deriving DecidableEq, Repr

/-- Errors a reconciler step can return: the dedicated push-back kind
(`worker.pushBackError`, carrying a delay in seconds) or any other error
(carrying its message). -/
inductive WorkerErr where
  | pushBack (delay : Int)
  | other (msg : String)
deriving DecidableEq, Repr

/-- `statesThatAreSuccess`. -/
def statesThatAreSuccess : List String := ["NEUTRAL", "SUCCESS", ""]

/-- A skip condition (`worker.shouldSkipFunc`): details to a result and an
optional error. -/
abbrev ShouldSkipFunc := PullRequestDetails → ShouldSkipResult × Option WorkerErr

/-- `Worker.shouldSkipBecauseOfTitle`. -/
def shouldSkipBecauseOfTitle (cfg : IgnoreConfig) : ShouldSkipFunc :=
  fun details =>
    let ignoredBy := cfg.IsTitleIgnored details.title
    if ignoredBy ≠ "" then
      (⟨true, "title is in ignore list",
        "`" ++ details.title ++ "` is in the ignore list (`" ++
          String.intercalate ", " cfg.ignoreWithTitles.Strings ++
          "`, matched by `" ++ ignoredBy ++ "`)"⟩, none)
    else (⟨false, "", ""⟩, none)

/-- Inner loop of `Worker.shouldSkipBecauseOfLabel`: first label of the
pull request that is in the ignore list. -/
def firstIgnoredLabel (cfg : IgnoreConfig) : List String → Option String
  | [] => none
  | label :: rest =>
    if cfg.IsLabelIgnored label ≠ "" then some label else firstIgnoredLabel cfg rest

/-- `Worker.shouldSkipBecauseOfLabel`. -/
def shouldSkipBecauseOfLabel (cfg : IgnoreConfig) : ShouldSkipFunc :=
  fun details =>
    match firstIgnoredLabel cfg details.labels with
    | some label =>
      (⟨true, "label is in ignore list",
        "`" ++ label ++ "` is in the ignore list (`" ++
          String.intercalate ", " cfg.ignoreWithLabels.Strings ++ "`)"⟩, none)
    | none => (⟨false, "", ""⟩, none)

/-- `Worker.shouldSkipBecauseOfAuthorName`. -/
def shouldSkipBecauseOfAuthorName (cfg : IgnoreConfig) : ShouldSkipFunc :=
  fun details =>
    let ignoredBy := cfg.IsUserIgnored details.author
    if ignoredBy = "" then (⟨false, "", ""⟩, none)
    else
      (⟨true, "author is in ignore list",
        "`" ++ details.author ++ "` is in the ignore list (`" ++
          String.intercalate ", " cfg.ignoreFromUsers.Strings ++
          "`, matched by `" ++ ignoredBy ++ "`)"⟩, none)

/-- `Worker.shouldSkipBecauseOfHistory`. -/
def shouldSkipBecauseOfHistory (cfg : MergeConfigV1) : ShouldSkipFunc :=
  fun details =>
    if !cfg.requireLinearHistory then (⟨false, "", ""⟩, none)
    else if details.aheadBy = 0 then (⟨false, "", ""⟩, none)
    else
      (⟨true, "a linear history is required",
        "the branch is not upto date with the latest changes from `" ++
          details.baseRefName ++ "` branch"⟩, none)

/-- `Worker.shouldSkipBecauseOfReviews`. -/
def shouldSkipBecauseOfReviews (cfg : MergeConfigV1) : ShouldSkipFunc :=
  fun details =>
    if cfg.requiredApprovals > 0 ∧ cfg.requiredApprovals > details.approvedBy.length then
      (⟨true, "missing required approvals",
        toString cfg.requiredApprovals ++ " approvals are required, got " ++
          toString details.approvedBy.length⟩, none)
    else
      let authorsMissing :=
        if cfg.requireApprovalsFrom.length > 0 then
          cfg.requireApprovalsFrom.filter
            (fun re => !details.approvedBy.any (fun name => re.Equal name))
        else []
      if authorsMissing.length > 0 then
        (⟨true, "approval(s) missing",
          String.intercalate "\n"
            (authorsMissing.map (fun re => "`" ++ re.text ++ "` didnt approved yet"))⟩,
          none)
      else (⟨false, "", ""⟩, none)

/-- Sort the check table rows by name (`sort.Slice` in
`buildAvailableChecksList`). -/
def sortChecksByName (rows : List (String × String)) : List (String × String) :=
  rows.mergeSort (fun a b => a.1 ≤ b.1)

/-- `Worker.buildAvailableChecksList`. -/
def buildAvailableChecksList (details : PullRequestDetails) : String :=
  if details.checkStates.isEmpty then ""
  else
    let rows := sortChecksByName details.checkStates
    let body := rows.map (fun nameState =>
      let passed := if statesThatAreSuccess.contains nameState.2 then "✅" else "❌"
      let st := if nameState.2 = "" then "‎" else nameState.2
      "| `" ++ nameState.1 ++ "` | `" ++ st ++ "` | " ++ passed ++ " |\n")
    "## Available Checks\n" ++
      "| Name | State | Good Enough For Merge? |\n" ++
      "| ---- | ----- | ---------------------- |\n" ++
      String.join body

/-- Required entries with no matching check name (`checksMissing` in
`Worker.shouldSkipBecauseOfChecks`). -/
def checksMissing (cfg : MergeConfigV1) (details : PullRequestDetails) : List String :=
  (cfg.requiredChecks.filter
    (fun re => !details.checkStates.any (fun c => re.Equal c.1))).map RegexItem.text

/-- Matched checks whose state is not in the success set
(`checksNotSucceeded` in `Worker.shouldSkipBecauseOfChecks`): pairs of
(check name, entry text), collected per required entry in order, and per
recorded check in order. -/
def checksNotSucceeded (cfg : MergeConfigV1) (details : PullRequestDetails) :
    List (String × String) :=
  cfg.requiredChecks.flatMap (fun re =>
    (details.checkStates.filter
      (fun c => re.Equal c.1 && !statesThatAreSuccess.contains c.2)).map
      (fun c => (c.1, re.text)))

/-- `Worker.shouldSkipBecauseOfChecks`. `now` is the evaluation time and
`durationToWaitAfterUpdateBranch` the worker setting; the recency grace
returns the push-back error `pushBackError{delay: diff}` with
`diff = lastCommitTime + durationToWaitAfterUpdateBranch - now`. -/
def shouldSkipBecauseOfChecks (durationToWaitAfterUpdateBranch : Int) (now : Int)
    (cfg : MergeConfigV1) : ShouldSkipFunc :=
  fun details =>
    if cfg.requiredChecks.length = 0 then (⟨false, "", ""⟩, none)
    else if checksMissing cfg details ≠ [] then
      (⟨true, "check(s) missing",
        String.intercalate "\n"
          ((checksMissing cfg details).map
            (fun t => "no check matches `" ++ t ++ "`") ++
            ["", buildAvailableChecksList details])⟩, none)
    else if checksNotSucceeded cfg details ≠ [] then
      (⟨true, "check(s) did not succeeded",
        String.intercalate "\n"
          ((checksNotSucceeded cfg details).map
            (fun c => "check `" ++ c.1 ++ "` did not succeed (matched by `" ++ c.2 ++ "`)") ++
            ["", buildAvailableChecksList details])⟩, none)
    else if now < details.lastCommitTime + durationToWaitAfterUpdateBranch then
      (⟨false, "", ""⟩,
        some (.pushBack (details.lastCommitTime + durationToWaitAfterUpdateBranch - now)))
    else (⟨false, "", ""⟩, none)

/-- Condition loop shared by `Worker.shouldSkipMerge` and
`Worker.shouldSkipUpdate`: the first condition that errors or skips wins
and its non-empty title gets the prefix `px`. -/
def evalSkipConditions (px : String) (conds : List ShouldSkipFunc)
    (details : PullRequestDetails) : ShouldSkipResult × Option WorkerErr :=
  match conds with
  | [] => (⟨false, "", ""⟩, none)
  | c :: rest =>
    let r := c details
    if r.2.isSome ∨ r.1.skipAction then
      (if r.1.title ≠ "" then ({ r.1 with title := px ++ r.1.title }, r.2) else r)
    else evalSkipConditions px rest details

/-- `Worker.shouldSkipMerge`: the six merge-path conditions in source
order, titles prefixed with "not merging: ". -/
def shouldSkipMerge (durationToWaitAfterUpdateBranch now : Int) (cfg : ConfigV1) :
    ShouldSkipFunc :=
  evalSkipConditions "not merging: "
    [shouldSkipBecauseOfTitle cfg.merge.ignore,
     shouldSkipBecauseOfLabel cfg.merge.ignore,
     shouldSkipBecauseOfAuthorName cfg.merge.ignore,
     shouldSkipBecauseOfHistory cfg.merge,
     shouldSkipBecauseOfReviews cfg.merge,
     shouldSkipBecauseOfChecks durationToWaitAfterUpdateBranch now cfg.merge]

/-- `Worker.shouldSkipUpdate`: the three update-path conditions in source
order, titles prefixed with "not updating: ". -/
def shouldSkipUpdate (cfg : ConfigV1) : ShouldSkipFunc :=
  evalSkipConditions "not updating: "
    [shouldSkipBecauseOfTitle cfg.update.ignore,
     shouldSkipBecauseOfLabel cfg.update.ignore,
     shouldSkipBecauseOfAuthorName cfg.update.ignore]

/-! ## KV buckets -/

/-- A NATS key/value bucket holding string-typed values, modelled as an
association list with last-writer-wins reads. -/
structure KVBucket where
  entries : List (String × String)
deriving DecidableEq, Repr

/-- Read a key: first (most recent) entry wins; `none` is
`nats.ErrKeyNotFound`. -/
def KVBucket.get (kv : KVBucket) (k : String) : Option String :=
  (kv.entries.find? (fun e => e.1 = k)).map Prod.snd

/-- Overwrite a key. -/
def KVBucket.put (kv : KVBucket) (k v : String) : KVBucket :=
  ⟨(k, v) :: kv.entries⟩

theorem KVBucket.get_after_put (kv : KVBucket) (k v : String) :
    (kv.put k v).get k = some v := by
  simp [KVBucket.get, KVBucket.put, List.find?]

/-- `worker.hashForKV`: the sha512 hex digest of the name. Modelled as an
injective tagging function; the code relies only on the digest being a
deterministic function of the name. -/
def hashForKV (name : String) : String :=
  "sha512:" ++ name

/-- The hex-encoded md5 digest used in `common.QueueMessage` as message id
and rate-limit key, modelled like `hashForKV`. -/
def md5Hex (s : String) : String :=
  "md5:" ++ s

/-! ## check_runs.go and the check-run GraphQL mutations -/

/-- The `createCheckRun` GraphQL mutation issued by
`github.CreateCheckRun`: its input carries the repository node id, the
head sha, the requested status, the bot name, the output title/summary,
and the hard-coded `conclusion: NEUTRAL`. -/
structure CreateCheckRunMutation where
  repositoryId : String
  sha : String
  status : String
  name : String
  title : String
  summary : String
  conclusion : String
deriving DecidableEq, Repr

/-- A remote call made by `Worker.CreateOrUpdateCheckRun`: either the
create mutation or the `updateCheckRun` mutation addressed at a stored
check-run id. -/
inductive CheckRunCall where
  | create (m : CreateCheckRunMutation)
  | update (checkRunID status name title summary conclusion : String)
deriving DecidableEq, Repr

/-- Result of one `Worker.CreateOrUpdateCheckRun` call: the check-runs KV
afterwards and the remote calls issued. -/
structure CheckRunStep where
  kv : KVBucket
  calls : List CheckRunCall
deriving DecidableEq, Repr

/-- `Worker.CreateOrUpdateCheckRun`. `createdID` / `updatedID` stand for
the id string the respective GraphQL call returns (the remote host is an
oracle); `botName` is `worker.BotName`. An empty `sha` returns
immediately; otherwise the check-runs KV is consulted under
`hashForKV (pullRequestNodeID + sha)`: a missing or empty entry leads to
a create (whose returned id is stored), a non-empty entry to an update of
that stored id (whose returned id is stored back). -/
def CreateOrUpdateCheckRun (kv : KVBucket) (botName createdID updatedID : String)
    (repositoryNodeID pullRequestNodeID sha status title summary : String) :
    CheckRunStep :=
  if sha = "" then ⟨kv, []⟩
  else
    let key := hashForKV (pullRequestNodeID ++ sha)
    match kv.get key with
    | none =>
      ⟨kv.put key createdID,
        [.create ⟨repositoryNodeID, sha, status, botName, title, summary, "NEUTRAL"⟩]⟩
    | some v =>
      if v = "" then
        ⟨kv.put key createdID,
          [.create ⟨repositoryNodeID, sha, status, botName, title, summary, "NEUTRAL"⟩]⟩
      else
        ⟨kv.put key updatedID, [.update v status botName title summary "NEUTRAL"]⟩

/-! ## common/common.go : QueueMessage, the rate-limit gate -/

/-- Unix seconds of Go's zero `time.Time` (January 1, year 1 UTC): the
value `lastMessageSendTime` holds when the rate-limit KV has no entry. -/
def goZeroUnix : Int := -62135596800

/-- A rate-limit KV bucket: values are the stored unix seconds
(8-byte little-endian in the source). -/
structure RateKV where
  entries : List (String × Int)
deriving DecidableEq, Repr

/-- Read a rate-limit entry. -/
def RateKV.get (kv : RateKV) (k : String) : Option Int :=
  (kv.entries.find? (fun e => e.1 = k)).map Prod.snd

/-- Overwrite a rate-limit entry. -/
def RateKV.put (kv : RateKV) (k : String) (v : Int) : RateKV :=
  ⟨(k, v) :: kv.entries⟩

theorem RateKV.read_after_put (kv : RateKV) (k : String) (v : Int) :
    (kv.put k v).get k = some v := by
  simp [RateKV.get, RateKV.put, List.find?]

/-- The message handed to `PublishMsgAsync`: its subject, the optional
`Nats-Msg-Id` deduplication header, and the optional `DelayUntil` header.
The `DelayUntil` value is serialised as RFC 3339 in the source; it is
modelled by the unix second it denotes. -/
structure PublishedMessage where
  subject : String
  msgIdHeader : Option String
  delayUntilHeader : Option Int
deriving DecidableEq, Repr

/-- Result of `common.QueueMessage`: the published message and the
rate-limit KV afterwards. -/
structure QueueOutcome where
  msg : PublishedMessage
  kv : RateKV
deriving DecidableEq, Repr

/-- `common.QueueMessage`. Looks up the last send time stored under the
md5 digest of the fingerprint `msgID` (Go's zero time when absent), and
when `now` is still inside the interval publishes with the deduplication
and delay-until headers set; the KV entry is then overwritten with
`now`. -/
def QueueMessage (kv : RateKV) (now interval : Int) (subject msgID : String) :
    QueueOutcome :=
  let msgIDHash := md5Hex msgID
  let lastMessageSendTime := (kv.get msgIDHash).getD goZeroUnix
  let diff := lastMessageSendTime + interval - now
  if 0 < diff then
    ⟨⟨subject, some msgIDHash, some (now + diff)⟩, kv.put msgIDHash now⟩
  else
    ⟨⟨subject, none, none⟩, kv.put msgIDHash now⟩

/-! ## access_token (worker) : the token cache -/

/-- `github.AccessToken`: the token string and its expiry (unix
seconds). -/
structure AccessToken where
  token : String
  expiresAt : Int
deriving DecidableEq, Repr

/-- Result of `Worker.getAccessToken`: the access token the call hands
back (the source returns its `token` string), the cache entry for this
repository afterwards, and whether a fresh token was minted remotely. -/
structure TokenOutcome where
  returned : AccessToken
  cache : Option AccessToken
  minted : Bool
deriving DecidableEq, Repr

/-- `Worker.getAccessToken` for one repository. `cache` is the decoded
access-tokens KV entry under `hashForKV(repository.full_name)` (`none`
covers a missing or empty entry), `fresh` is the token the remote mint
(`Worker.createNewAccessToken` via `github.GetAccessToken`) would return.
A miss mints; a hit whose `expiresAt` lies strictly before `now`
(Go `ExpiresAt.Before(time.Now())`) mints; any other hit is returned
as-is. Minted tokens are written through to the cache. -/
def getAccessToken (cache : Option AccessToken) (now : Int) (fresh : AccessToken) :
    TokenOutcome :=
  match cache with
  | none => ⟨fresh, some fresh, true⟩
  | some cached =>
    if cached.expiresAt < now then ⟨fresh, some fresh, true⟩
    else ⟨cached, cache, false⟩

/-! ## push_woker.go and status_woker.go : the fan-out reconcilers -/

/-- Observable behaviour of one push/status reconciler run, after session
prerequisites (access token, base sha, config) are in hand: either the
run returned before the open-pull-request search, or it searched with the
given label list and published one `pull_request` work item per returned
number. -/
inductive FanOut where
  | skipped
  | queried (searchLabels : List String) (published : List Int)
deriving DecidableEq, Repr

/-- The label list handed to
`github.GetPullRequestsThatAreOpenAndHaveOneOfTheseLabels`:
`append(cfg.Update.Labels.Strings(), cfg.Merge.Labels.Strings()...)`. -/
def fanOutLabels (cfg : ConfigV1) : List String :=
  cfg.update.labels.Strings ++ cfg.merge.labels.Strings

/-- `pushWorker.runLogic` (fan-out part): when `cfg.Update.Labels` is
empty the run returns ("update is disabled") without searching; otherwise
it asks the host (`host` is the oracle for the open-PR search) and
publishes one pull_request item per returned number. -/
def pushWorkerFanOut (cfg : ConfigV1) (host : List String → List Int) : FanOut :=
  if cfg.update.labels.length = 0 then .skipped
  else .queried (fanOutLabels cfg) (host (fanOutLabels cfg))

/-- `statusWorker.runLogic` (fan-out part): same body as the push
reconciler. -/
def statusWorkerFanOut (cfg : ConfigV1) (host : List String → List Int) : FanOut :=
  if cfg.update.labels.length = 0 then .skipped
  else .queried (fanOutLabels cfg) (host (fanOutLabels cfg))

/-! ## pull_request_worker.go : the per-PR state machine -/

/-- Outcome of one GraphQL mutation as seen by the caller: success, a
host-reported `errors` list (`github.GraphQLErrors`, messages joined), or
a transport/request failure. -/
inductive GraphQLResult where
  | ok
  | gqlErrors (msgs : String)
  | requestError (msg : String)
deriving DecidableEq, Repr

/-- Oracle for the remote mutations one `pullRequestWorker.runLogic`
delivery may issue. -/
structure RemoteOracles where
  updateResult : GraphQLResult
  mergeResult : GraphQLResult
  deleteOk : Bool
deriving DecidableEq, Repr

/-- A remote mutation issued by the pull-request reconciler. Check-run
surfacing goes through `CreateOrUpdateCheckRun` (modelled separately);
here a check-run write records the (status, title, summary) it hands to
the manager for the PR's head sha. -/
inductive PrAction where
  | checkRun (sha status title summary : String)
  | updateBranch (pullRequestID expectedHeadOid : String)
  | mergePR (pullRequestID expectedHeadOid mergeMethod : String)
  | deleteRef (refNodeID : String)
deriving DecidableEq, Repr

/-- Tests whether an action is the merge mutation. -/
def PrAction.isMerge : PrAction → Bool
  | .mergePR _ _ _ => true
  | _ => false

/-- Result triple of `pullRequestWorker.updatePullRequest` and
`pullRequestWorker.mergePullRequest` (`stopLogic`, `did…`, error),
together with the remote calls the step issued. -/
structure StepResult where
  stop : Bool
  did : Bool
  calls : List PrAction
  err : Option WorkerErr
deriving DecidableEq, Repr

/-- Worker settings the reconciler reads. -/
structure WorkerSettings where
  retryWait : Int
  durationToWaitAfterUpdateBranch : Int
deriving DecidableEq, Repr

/-- `pullRequestWorker.updatePullRequest`. Check-run manager errors are
not modelled (the KV and check-run surface are taken as infallible); the
update-branch mutation outcome comes from the oracle. -/
def updatePullRequest (cfg : ConfigV1) (details : PullRequestDetails)
    (o : RemoteOracles) : StepResult :=
  if cfg.update.labels.length = 0 then ⟨false, false, [], none⟩
  else if cfg.update.labels.ContainsOneOf details.labels = "" then
    ⟨false, false, [], none⟩
  else if details.aheadBy = 0 then ⟨false, false, [], none⟩
  else if details.hasConflicts then
    ⟨true, false,
      [.checkRun details.lastCommitSha "COMPLETED"
        "not updating: pull request has conflicts" ""], none⟩
  else
    let r := shouldSkipUpdate cfg details
    if r.1.skipAction then
      ⟨true, false,
        [.checkRun details.lastCommitSha "COMPLETED" r.1.title r.1.summary], none⟩
    else
      let pre := [PrAction.checkRun details.lastCommitSha "COMPLETED" "updating" "",
                  PrAction.updateBranch details.id details.lastCommitSha]
      match o.updateResult with
      | .ok =>
        ⟨false, true,
          pre ++ [.checkRun details.lastCommitSha "COMPLETED" "updated" ""], none⟩
      | .gqlErrors msgs =>
        ⟨false, false,
          pre ++ [.checkRun details.lastCommitSha "COMPLETED" "error during update" msgs],
          some (.other "error updating pull request")⟩
      | .requestError _ =>
        ⟨false, false, pre, some (.other "error updating pull request")⟩

/-- `pullRequestWorker.mergePullRequest`. -/
def mergePullRequest (w : WorkerSettings) (now : Int) (cfg : ConfigV1)
    (details : PullRequestDetails) (o : RemoteOracles) : StepResult :=
  if cfg.merge.labels.ContainsOneOf details.labels = "" then
    ⟨false, false, [], none⟩
  else
    let r := shouldSkipMerge w.durationToWaitAfterUpdateBranch now cfg details
    match r.2 with
    | some e => ⟨false, false, [], some e⟩
    | none =>
      if r.1.skipAction then
        ⟨true, false,
          [.checkRun details.lastCommitSha "COMPLETED" r.1.title r.1.summary], none⟩
      else
        let pre := [PrAction.checkRun details.lastCommitSha "COMPLETED"
                      ("merging " ++ details.headRefName ++ " into " ++ details.baseRefName) "",
                    PrAction.mergePR details.id details.lastCommitSha
                      (githubStrategyString cfg.merge.strategy)]
        match o.mergeResult with
        | .ok => ⟨false, true, pre, none⟩
        | .gqlErrors msgs =>
          ⟨false, false,
            pre ++ [.checkRun details.lastCommitSha "COMPLETED" "error during merge" msgs],
            some (.other "unable to merge pull request")⟩
        | .requestError _ =>
          ⟨false, false, pre, some (.other "unable to merge pull request")⟩

/-- Return points of `pullRequestWorker.runLogic` after the detail fetch:
the state test ("pull request is not open anymore"), the commit test
("pull request did not contain commits"), a skip surfaced by either step
(`stopLogic`), the post-update push-back, a merge-path push-back, an
ordinary error, or the fall-through end of the function. -/
inductive PrTerminal where
  | notOpen
  | noCommits
  | stopped
  | pushedBack (delay : Int)
  | failed (msg : String)
  | finished
deriving DecidableEq, Repr

/-- Result of one `pullRequestWorker.runLogic` delivery: the return point
and the remote mutations issued along the way. -/
structure RunOutcome where
  terminal : PrTerminal
  calls : List PrAction
deriving DecidableEq, Repr

/-- The Go error value `runLogic` returns at each terminal. -/
def RunOutcome.toErr (r : RunOutcome) : Option WorkerErr :=
  match r.terminal with
  | .pushedBack d => some (.pushBack d)
  | .failed m => some (.other m)
  | _ => none

/-- `pullRequestWorker.runLogic`, from the fetched detail snapshot on
(session assembly and the detail fetch itself are the callers' oracles).
Mirrors the source: state test, commit test, update step, the
just-updated push-back when a merge label is present, merge step, and
branch deletion when the merge succeeded and `deleteBranch` is set. -/
def runLogic (w : WorkerSettings) (now : Int) (cfg : ConfigV1)
    (details : PullRequestDetails) (o : RemoteOracles) : RunOutcome :=
  if details.state ≠ "OPEN" then ⟨.notOpen, []⟩
  else if details.lastCommitTime = 0 ∨ details.lastCommitSha = "" then
    ⟨.noCommits, []⟩
  else
    let u := updatePullRequest cfg details o
    match u.err with
    | some (.pushBack d) => ⟨.pushedBack d, u.calls⟩
    | some (.other m) => ⟨.failed m, u.calls⟩
    | none =>
      if u.stop then ⟨.stopped, u.calls⟩
      else if u.did ∧ cfg.merge.labels.ContainsOneOf details.labels ≠ "" then
        ⟨.pushedBack w.durationToWaitAfterUpdateBranch, u.calls⟩
      else
        let m := mergePullRequest w now cfg details o
        match m.err with
        | some (.pushBack d) => ⟨.pushedBack d, u.calls ++ m.calls⟩
        | some (.other s) => ⟨.failed s, u.calls ++ m.calls⟩
        | none =>
          if m.stop then ⟨.stopped, u.calls ++ m.calls⟩
          else if m.did ∧ cfg.merge.deleteBranch then
            if o.deleteOk then
              ⟨.finished, u.calls ++ m.calls ++ [.deleteRef details.headRefID]⟩
            else
              ⟨.failed "unable to delete branch",
                u.calls ++ m.calls ++ [.deleteRef details.headRefID]⟩
          else ⟨.finished, u.calls ++ m.calls⟩

/-! ## worker.go : handleMessage, the dispatcher -/

/-- What the dispatcher does with a message after the handler returns. -/
inductive HandleOutcome where
  | acked
  | nackedWithDelay (delay : Int) (loggedAsError : Bool)
deriving DecidableEq, Repr

/-- `handleMessage` (disposition part): success is acked; a
`pushBackError` is negatively acknowledged with exactly its carried delay
and not logged as an error; any other error is logged and negatively
acknowledged with `retry_wait`. -/
def handleMessage (retryWait : Int) (handlerResult : Option WorkerErr) : HandleOutcome :=
  match handlerResult with
  | none => .acked
  | some (.pushBack d) => .nackedWithDelay d false
  | some (.other _) => .nackedWithDelay retryWait true

/-! ## Concrete instances used in the theorems below -/

/-- A literal config entry such as `"merge"`: on the strings evaluated in
this development its compiled regex behaves as exact equality. -/
def litItem (t : String) : RegexItem :=
  ⟨t, fun s => s == t⟩

/-- The entry `".*"`: its compiled regex matches every string. -/
def anyItem : RegexItem :=
  ⟨".*", fun _ => true⟩

/-- The entry with empty text: `regexp.Compile("")` succeeds and the
resulting regex matches every string. -/
def emptyRegexEntry : RegexItem :=
  ⟨"", fun _ => true⟩

/-- An ignore section with all three lists empty. -/
def emptyIgnore : IgnoreConfig := ⟨[], [], []⟩

/-- A merge section with the single label `merge`, squash strategy and no
further requirements. -/
def baseMerge : MergeConfigV1 :=
  { labels := [litItem "merge"], strategy := "squash", requiredApprovals := 0,
    requireApprovalsFrom := [], requiredChecks := [], requireLinearHistory := false,
    deleteBranch := false, ignore := emptyIgnore }

/-- A config with the merge feature enabled and the update feature
disabled (`update.labels` empty). -/
def mergeOnlyCfg : ConfigV1 :=
  { merge := baseMerge, update := { labels := [], ignore := emptyIgnore } }

/-- A config with both features enabled. -/
def updateCfg : ConfigV1 :=
  { merge := baseMerge, update := { labels := [litItem "update-branch"], ignore := emptyIgnore } }

/-- The merge section of `updateCfg` with required check `.*`. -/
def checksMerge : MergeConfigV1 :=
  { baseMerge with requiredChecks := [anyItem] }

/-- A host oracle whose open-PR search returns pull request number 7. -/
def hostOnePR : List String → List Int := fun _ => [7]

/-- A detail snapshot of an open pull request without special labels. -/
def basePR : PullRequestDetails :=
  { aheadBy := 0, approvedBy := [], author := "alice", baseRefName := "main",
    checkStates := [], hasConflicts := false, headRefID := "REF_1",
    headRefName := "feature", id := "PR_1", isMergeable := true, labels := [],
    lastCommitSha := "abc123", lastCommitTime := 100, state := "OPEN",
    title := "improve docs" }

/-- `basePR` carrying the label `no-merge`. -/
def noMergePR : PullRequestDetails := { basePR with labels := ["no-merge"] }

/-- `basePR` already merged. -/
def mergedPR : PullRequestDetails := { basePR with state := "MERGED" }

/-- `basePR` one commit behind base, labelled for update and merge. -/
def behindPR : PullRequestDetails :=
  { basePR with labels := ["update-branch", "merge"], aheadBy := 1 }

/-- `basePR` labelled for merge with a green `ci` check. -/
def ciPR : PullRequestDetails :=
  { basePR with labels := ["merge"], checkStates := [("ci", "SUCCESS")] }

/-- A YAML ignore section listing the label `no-merge` under
`ignoreWithLabels`. -/
def yamlNoMergeSection : YamlIgnoreSection := ⟨[], [], [litItem "no-merge"]⟩

/-- The same ignore section with the (unexported) field populated
directly, as the package-internal tests do. -/
def directNoMergeIgnore : IgnoreConfig := ⟨[], [], [litItem "no-merge"]⟩

/-- An oracle where every mutation succeeds. -/
def allOk : RemoteOracles := ⟨.ok, .ok, true⟩

/-- A config whose merge labels are the entry `x` followed by the
empty-text entry, with the update feature on `update-branch`. -/
def shadowCfg : ConfigV1 :=
  { merge := { baseMerge with labels := [litItem "x", emptyRegexEntry] },
    update := { labels := [litItem "update-branch"], ignore := emptyIgnore } }

/-- `basePR` one commit behind base, labelled `update-branch`, `a` and
`x`: the label `x` matches the merge entry `x`, but the scan reaches the
empty-text entry first (on the label `update-branch`). -/
def shadowPR : PullRequestDetails :=
  { basePR with labels := ["update-branch", "a", "x"], aheadBy := 1 }

/-- Worker settings: 30s retry wait, 120s post-update cool-down. -/
def w0 : WorkerSettings := ⟨30, 120⟩

/-! ## Theorems -/

/-- C10: a call of the check-run manager with an empty head sha returns
success immediately and is a complete no-op: the check-runs KV is left
untouched and no create or update mutation is issued. -/
theorem checkRun_emptySha_noop (kv : KVBucket)
    (botName createdID updatedID repoID prID status title summary : String) :
    CreateOrUpdateCheckRun kv botName createdID updatedID repoID prID ""
      status title summary = ⟨kv, []⟩ := by
  simp [CreateOrUpdateCheckRun]

/-- C2: for a pair (pull-request node id, head sha) with non-empty sha,
a call finding no stored id (or an empty one) issues exactly the create
mutation, whose input carries `conclusion = NEUTRAL`, and stores the id
the mutation returned under `hashForKV (node_id ++ sha)`; a call finding
a non-empty stored id issues exactly one update of that stored check-run
and no create. -/
theorem checkRun_create_update (kv : KVBucket)
    (botName createdID updatedID repoID prID sha status title summary : String)
    (hsha : sha ≠ "") :
    (kv.get (hashForKV (prID ++ sha)) = none ∨
        kv.get (hashForKV (prID ++ sha)) = some "" →
      CreateOrUpdateCheckRun kv botName createdID updatedID repoID prID sha
          status title summary =
        ⟨kv.put (hashForKV (prID ++ sha)) createdID,
          [.create ⟨repoID, sha, status, botName, title, summary, "NEUTRAL"⟩]⟩ ∧
      (CreateOrUpdateCheckRun kv botName createdID updatedID repoID prID sha
          status title summary).kv.get (hashForKV (prID ++ sha)) = some createdID) ∧
    (∀ storedID, kv.get (hashForKV (prID ++ sha)) = some storedID → storedID ≠ "" →
      CreateOrUpdateCheckRun kv botName createdID updatedID repoID prID sha
          status title summary =
        ⟨kv.put (hashForKV (prID ++ sha)) updatedID,
          [.update storedID status botName title summary "NEUTRAL"]⟩) := by
  constructor
  · intro hget
    rcases hget with hget | hget <;>
      simp [CreateOrUpdateCheckRun, hsha, hget, KVBucket.get_after_put]
  · intro storedID hget hne
    simp [CreateOrUpdateCheckRun, hsha, hget, hne]

theorem checkRun_create_update_witness :
    CreateOrUpdateCheckRun ⟨[]⟩ "bot" "id1" "id2" "REPO" "PR" "sha1" "COMPLETED"
        "updating" "" =
      ⟨KVBucket.put ⟨[]⟩ (hashForKV ("PR" ++ "sha1")) "id1",
        [.create ⟨"REPO", "sha1", "COMPLETED", "bot", "updating", "", "NEUTRAL"⟩]⟩ ∧
    CreateOrUpdateCheckRun (KVBucket.put ⟨[]⟩ (hashForKV ("PR" ++ "sha1")) "id1")
        "bot" "id1" "id2" "REPO" "PR" "sha1" "COMPLETED" "updated" "" =
      ⟨KVBucket.put (KVBucket.put ⟨[]⟩ (hashForKV ("PR" ++ "sha1")) "id1")
          (hashForKV ("PR" ++ "sha1")) "id2",
        [.update "id1" "COMPLETED" "bot" "updated" "" "NEUTRAL"]⟩ := by
  constructor
  · exact ((checkRun_create_update ⟨[]⟩ "bot" "id1" "id2" "REPO" "PR" "sha1"
      "COMPLETED" "updating" "" (by decide)).1 (Or.inl (by decide))).1
  · exact (checkRun_create_update (KVBucket.put ⟨[]⟩ (hashForKV ("PR" ++ "sha1")) "id1")
      "bot" "id1" "id2" "REPO" "PR" "sha1" "COMPLETED" "updated" "" (by decide)).2
      "id1" (by decide) (by decide)

/-- C6: with a stored last enqueue time for the fingerprint digest, a
publish at a time strictly inside the interval carries the deduplication
header (the digest of the fingerprint) and a delay-until header equal to
the interval end; otherwise it carries neither header; and in both cases
the rate-limit KV entry for the digest is overwritten with the current
time. -/
theorem queueMessage_rateLimit_gate (kv : RateKV) (now interval last : Int)
    (subject msgID : String)
    (hlast : kv.get (md5Hex msgID) = some last) :
    (now < last + interval →
      QueueMessage kv now interval subject msgID =
        ⟨⟨subject, some (md5Hex msgID), some (last + interval)⟩,
          kv.put (md5Hex msgID) now⟩) ∧
    (last + interval ≤ now →
      QueueMessage kv now interval subject msgID =
        ⟨⟨subject, none, none⟩, kv.put (md5Hex msgID) now⟩) ∧
    (QueueMessage kv now interval subject msgID).kv.get (md5Hex msgID) = some now := by
  refine ⟨?_, ?_, ?_⟩
  · intro h
    have hd : 0 < last + interval - now := by omega
    have he : now + (last + interval - now) = last + interval := by omega
    simp [QueueMessage, hlast, hd, he]
  · intro h
    have hd : ¬ 0 < last + interval - now := by omega
    simp [QueueMessage, hlast, hd]
  · by_cases hd : 0 < last + interval - now <;>
      simp [QueueMessage, hlast, hd, RateKV.read_after_put]

theorem queueMessage_rateLimit_gate_witness :
    QueueMessage ⟨[(md5Hex "push.1.R", 1000)]⟩ 1010 30 "push.x" "push.1.R" =
      ⟨⟨"push.x", some (md5Hex "push.1.R"), some 1030⟩,
        RateKV.put ⟨[(md5Hex "push.1.R", 1000)]⟩ (md5Hex "push.1.R") 1010⟩ ∧
    QueueMessage ⟨[(md5Hex "push.1.R", 1000)]⟩ 1040 30 "push.x" "push.1.R" =
      ⟨⟨"push.x", none, none⟩,
        RateKV.put ⟨[(md5Hex "push.1.R", 1000)]⟩ (md5Hex "push.1.R") 1040⟩ := by
  constructor
  · have h := (queueMessage_rateLimit_gate ⟨[(md5Hex "push.1.R", 1000)]⟩ 1010 30 1000
      "push.x" "push.1.R" (by decide)).1 (by decide)
    simpa using h
  · exact (queueMessage_rateLimit_gate ⟨[(md5Hex "push.1.R", 1000)]⟩ 1040 30 1000
      "push.x" "push.1.R" (by decide)).2.1 (by decide)

/-- C9 counterexample: the expiry test in `Worker.getAccessToken` is
`ExpiresAt.Before(now)`, i.e. strict. On a cache hit whose `expires_at`
equals the current time the cached token is returned and nothing is
minted, although `expires_at ≤ now`: the claim's "no token with
expires_at ≤ now is ever returned" fails at this boundary. -/
theorem accessToken_expiryBoundary_counterexample :
    getAccessToken (some ⟨"cached-token", 100⟩) 100 ⟨"fresh-token", 200⟩ =
      ⟨⟨"cached-token", 100⟩, some ⟨"cached-token", 100⟩, false⟩ ∧
    (100 : Int) ≤ 100 := by
  constructor
  · simp [getAccessToken]
  · decide

/-- C9 amended: a cache hit whose `expires_at` is strictly earlier than
now mints a fresh token (written through to the cache); a hit with
`now ≤ expires_at` — including equality — is returned unchanged; hence,
provided freshly minted tokens expire after now, the returned token never
has `expires_at < now`. -/
theorem accessToken_amended (cache : Option AccessToken) (now : Int)
    (fresh : AccessToken) (hfresh : now < fresh.expiresAt) :
    now ≤ (getAccessToken cache now fresh).returned.expiresAt ∧
    (∀ c, cache = some c → c.expiresAt < now →
      getAccessToken cache now fresh = ⟨fresh, some fresh, true⟩) ∧
    (∀ c, cache = some c → now ≤ c.expiresAt →
      getAccessToken cache now fresh = ⟨c, cache, false⟩) := by
  refine ⟨?_, ?_, ?_⟩
  · match cache with
    | none => exact le_of_lt hfresh
    | some c =>
      by_cases h : c.expiresAt < now
      · simpa [getAccessToken, h] using le_of_lt hfresh
      · simpa [getAccessToken, h] using le_of_not_lt h
  · intro c hc h
    subst hc
    simp [getAccessToken, h]
  · intro c hc h
    subst hc
    simp [getAccessToken, not_lt_of_le h]

theorem accessToken_amended_witness :
    ((50 : Int) ≤ (getAccessToken (some ⟨"t", 40⟩) 50 ⟨"f", 200⟩).returned.expiresAt) ∧
    getAccessToken (some ⟨"t", 40⟩) 50 ⟨"f", 200⟩ = ⟨⟨"f", 200⟩, some ⟨"f", 200⟩, true⟩ := by
  have h := accessToken_amended (some ⟨"t", 40⟩) 50 ⟨"f", 200⟩ (by decide)
  exact ⟨h.1, h.2.1 ⟨"t", 40⟩ rfl (by decide)⟩

/-- C1 counterexample: with `update.labels` empty and `merge.labels`
non-empty the union is non-empty, yet both the push and the status
reconciler return ("update is disabled") without querying the host for
open pull requests and without publishing anything. -/
theorem fanOutGate_counterexample :
    mergeOnlyCfg.merge.labels ≠ [] ∧
    pushWorkerFanOut mergeOnlyCfg hostOnePR = .skipped ∧
    statusWorkerFanOut mergeOnlyCfg hostOnePR = .skipped := by
  refine ⟨?_, rfl, rfl⟩
  intro h
  simp [mergeOnlyCfg, baseMerge] at h

/-- C1 amended: the push and status reconcilers return without querying
the host exactly when `update.labels` is empty (even when `merge.labels`
is not); when `update.labels` is non-empty they query for all open pull
requests labelled with any entry of `update.labels ++ merge.labels` and
publish one pull_request work item per returned number. -/
theorem fanOutGate_amended (cfg : ConfigV1) (host : List String → List Int) :
    (pushWorkerFanOut cfg host = .skipped ↔ cfg.update.labels = []) ∧
    (statusWorkerFanOut cfg host = .skipped ↔ cfg.update.labels = []) ∧
    (cfg.update.labels ≠ [] →
      pushWorkerFanOut cfg host = .queried (fanOutLabels cfg) (host (fanOutLabels cfg)) ∧
      statusWorkerFanOut cfg host =
        .queried (fanOutLabels cfg) (host (fanOutLabels cfg))) := by
  by_cases h : cfg.update.labels = []
  · have hl : cfg.update.labels.length = 0 := by simp [h]
    refine ⟨?_, ?_, ?_⟩
    · simp [pushWorkerFanOut, hl, h]
    · simp [statusWorkerFanOut, hl, h]
    · intro hc
      exact absurd h hc
  · have hl : ¬ cfg.update.labels.length = 0 := by
      simpa [List.length_eq_zero] using h
    refine ⟨?_, ?_, ?_⟩
    · simp [pushWorkerFanOut, hl, h]
    · simp [statusWorkerFanOut, hl, h]
    · intro _
      exact ⟨by simp [pushWorkerFanOut, hl], by simp [statusWorkerFanOut, hl]⟩

theorem fanOutGate_amended_witness :
    pushWorkerFanOut updateCfg hostOnePR =
      .queried (fanOutLabels updateCfg) (hostOnePR (fanOutLabels updateCfg)) ∧
    statusWorkerFanOut updateCfg hostOnePR =
      .queried (fanOutLabels updateCfg) (hostOnePR (fanOutLabels updateCfg)) :=
  (fanOutGate_amended updateCfg hostOnePR).2.2
    (by simp [updateCfg])

/-- C7 counterexample: the entry with empty text compiled as the empty
regex matches every string, so `"a"` matches it, yet `ContainsOneOf`
returns the matching entry's text — the empty string — and thus no
non-empty witness although a match exists. -/
theorem containsOneOf_emptyEntry_counterexample :
    RegexItem.Equal emptyRegexEntry "a" = true ∧
    RegexSlice.ContainsOneOf [emptyRegexEntry] ["a"] = "" := by
  exact ⟨rfl, rfl⟩

/-- C7 amended: a string `s` matches an entry `e` iff `s` equals the
entry text under case folding or the compiled regex matches `s`; and over
a slice whose entries all have non-empty text, `ContainsOneOf` returns a
non-empty witness exactly when some item matches some entry (for an entry
with empty text a match is indistinguishable from no match). -/
theorem regexMatching_amended (sl : RegexSlice) (items : List String)
    (hne : ∀ e ∈ sl, e.text ≠ "") :
    (∀ (e : RegexItem) (s : String),
      e.Equal s = (eqFold s e.text || e.matchesRegex s)) ∧
    (sl.ContainsOneOf items ≠ "" ↔ ∃ i ∈ items, ∃ e ∈ sl, e.Equal i = true) :=
  ⟨fun _ _ => rfl, containsOneOf_ne_empty_iff sl items hne⟩

theorem regexMatching_amended_witness :
    RegexSlice.ContainsOneOf [litItem "merge"] ["MERGE"] ≠ "" ∧
    RegexSlice.ContainsOneOf [litItem "merge"] ["reject"] = "" := by
  constructor
  · exact (regexMatching_amended [litItem "merge"] ["MERGE"]
      (by intro e he; simp [litItem] at he; simp [he])).2.mpr
      ⟨"MERGE", by simp, litItem "merge", by simp, by decide⟩
  · by_contra h
    have h2 := (regexMatching_amended [litItem "merge"] ["reject"]
      (by intro e he; simp [litItem] at he; simp [he])).2.mp h
    rcases h2 with ⟨i, hi, e, he, heq⟩
    simp at hi
    simp [litItem] at he
    subst hi
    subst he
    exact absurd heq (by decide)

/-- C3 counterexample: with an empty `requiredChecks` list every
required-check condition passes vacuously and `now` is within the
post-commit grace window, yet `shouldSkipBecauseOfChecks` returns
immediately with no push-back error: the recency grace is only reached
when `requiredChecks` is non-empty. -/
theorem recencyGrace_emptyRequiredChecks_counterexample :
    checksMissing baseMerge basePR = [] ∧
    checksNotSucceeded baseMerge basePR = [] ∧
    (105 : Int) < basePR.lastCommitTime + 10 ∧
    shouldSkipBecauseOfChecks 10 105 baseMerge basePR = (⟨false, "", ""⟩, none) := by
  refine ⟨rfl, rfl, by decide, rfl⟩

/-- C3 amended: when `requiredChecks` is non-empty, no required check is
missing and none is in a non-success state, and `now` is strictly within
`duration_to_wait_after_update_branch` of the last commit time, the
evaluator returns a push-back error whose delay is exactly the remaining
wait; the grace is skipped for configurations with an empty
`requiredChecks` list. -/
theorem recencyGrace_amended (durationToWait now : Int) (cfg : MergeConfigV1)
    (details : PullRequestDetails)
    (hchecks : cfg.requiredChecks ≠ [])
    (hmiss : checksMissing cfg details = [])
    (hfail : checksNotSucceeded cfg details = [])
    (hrecent : now < details.lastCommitTime + durationToWait) :
    shouldSkipBecauseOfChecks durationToWait now cfg details =
      (⟨false, "", ""⟩,
        some (.pushBack (details.lastCommitTime + durationToWait - now))) := by
  have hlen : ¬ cfg.requiredChecks.length = 0 := by
    simpa [List.length_eq_zero] using hchecks
  rw [shouldSkipBecauseOfChecks]
  rw [if_neg hlen, if_neg (by simp [hmiss]), if_neg (by simp [hfail]), if_pos hrecent]

theorem recencyGrace_amended_witness :
    shouldSkipBecauseOfChecks 10 105 checksMerge ciPR =
      (⟨false, "", ""⟩, some (.pushBack 5)) := by
  have h := recencyGrace_amended 10 105 checksMerge ciPR
    (by simp [checksMerge, baseMerge]) rfl rfl (by decide)
  simpa using h

/-- C4: the `ignoreWithLabels` field of `worker.IgnoreConfig` is
unexported, so YAML decoding leaves it empty; on a config whose file
lists the pull request's label under `merge.ignoreWithLabels` the skip
evaluator does not skip, while the same ignore section with the field
populated directly (as the package-internal tests do) skips with title
"label is in ignore list". -/
theorem ignoreWithLabels_unexported_eval :
    (shouldSkipBecauseOfLabel (unmarshalIgnoreConfig yamlNoMergeSection) noMergePR).1.skipAction
      = false ∧
    (shouldSkipBecauseOfLabel directNoMergeIgnore noMergePR).1 =
      ⟨true, "label is in ignore list",
        "`no-merge` is in the ignore list (`no-merge`)"⟩ := by
  exact ⟨rfl, rfl⟩

theorem updatePullRequest_did_eq (cfg : ConfigV1) (details : PullRequestDetails)
    (o : RemoteOracles) (h : (updatePullRequest cfg details o).did = true) :
    updatePullRequest cfg details o =
      ⟨false, true,
        [.checkRun details.lastCommitSha "COMPLETED" "updating" "",
         .updateBranch details.id details.lastCommitSha,
         .checkRun details.lastCommitSha "COMPLETED" "updated" ""], none⟩ := by
  unfold updatePullRequest at h ⊢
  split_ifs at h ⊢ <;> try simp_all
  all_goals cases ho : o.updateResult <;> split_ifs at h ⊢ <;> simp_all

/-- C5 counterexample: the branch update mutation succeeded and the pull
request bears the label `x`, which matches the merge entry `x`; but the
label gate `ContainsOneOf` fires first on the merge entry with empty
text (its compiled empty regex matches the label `update-branch`) and
returns `""`, so the reconciler falls through with no push-back error
and the delivery is acknowledged — refuting the claim that any matching
merge label after a successful update yields a push-back. -/
theorem pushBack_shadowed_counterexample :
    (updatePullRequest shadowCfg shadowPR allOk).did = true ∧
    (∃ l ∈ shadowPR.labels, ∃ e ∈ shadowCfg.merge.labels, e.Equal l = true) ∧
    shadowCfg.merge.labels.ContainsOneOf shadowPR.labels = "" ∧
    (runLogic w0 0 shadowCfg shadowPR allOk).terminal = .finished ∧
    handleMessage w0.retryWait (runLogic w0 0 shadowCfg shadowPR allOk).toErr =
      .acked := by
  refine ⟨by decide, ?_, by decide, by decide, by decide⟩
  refine ⟨"x", by decide, litItem "x", ?_, by decide⟩
  simp [shadowCfg, baseMerge]

/-- C5 amended: whenever the branch update mutation succeeded
(`did_update = true`) and the merge-label gate
`merge.labels.ContainsOneOf(pr.labels)` returns a non-empty entry text —
in particular whenever some label matches some merge entry and every
merge entry has non-empty text — the reconciler returns the push-back
error with delay `duration_to_wait_after_update_branch` without issuing
any merge mutation, and the dispatcher turns that error into a negative
acknowledgement with exactly that delay, not logged as an ordinary
error. -/
theorem pushBack_after_update (w : WorkerSettings) (now : Int) (cfg : ConfigV1)
    (details : PullRequestDetails) (o : RemoteOracles)
    (hstate : details.state = "OPEN")
    (htime : details.lastCommitTime ≠ 0)
    (hsha : details.lastCommitSha ≠ "")
    (hdid : (updatePullRequest cfg details o).did = true)
    (hlabel : cfg.merge.labels.ContainsOneOf details.labels ≠ "") :
    runLogic w now cfg details o =
      ⟨.pushedBack w.durationToWaitAfterUpdateBranch,
        (updatePullRequest cfg details o).calls⟩ ∧
    (∀ a ∈ (runLogic w now cfg details o).calls, a.isMerge = false) ∧
    handleMessage w.retryWait (runLogic w now cfg details o).toErr =
      .nackedWithDelay w.durationToWaitAfterUpdateBranch false := by
  have hu := updatePullRequest_did_eq cfg details o hdid
  have hrun : runLogic w now cfg details o =
      ⟨.pushedBack w.durationToWaitAfterUpdateBranch,
        (updatePullRequest cfg details o).calls⟩ := by
    unfold runLogic
    rw [if_neg (by simp [hstate]), if_neg (by simp [htime, hsha]), hu]
    simp [hlabel]
  refine ⟨hrun, ?_, ?_⟩
  · intro a ha
    rw [hrun, hu] at ha
    simp only [List.mem_cons, List.not_mem_nil, or_false] at ha
    rcases ha with ha | ha | ha <;> subst ha <;> rfl
  · rw [hrun]
    simp [RunOutcome.toErr, handleMessage]

theorem pushBack_after_update_witness :
    runLogic w0 0 updateCfg behindPR allOk =
      ⟨.pushedBack 120, (updatePullRequest updateCfg behindPR allOk).calls⟩ ∧
    handleMessage 30 (runLogic w0 0 updateCfg behindPR allOk).toErr =
      .nackedWithDelay 120 false := by
  have h := pushBack_after_update w0 0 updateCfg behindPR allOk rfl (by decide)
    (by decide) (by decide) (by decide)
  exact ⟨h.1, h.2.2⟩

/-- C8: on a pull request whose fetched state is not OPEN (for example an
already-merged one) the reconciler terminates at the not-open return
point with no remote mutation at all, and a second run — even at another
time or against another mutation oracle — yields the same terminal
result. -/
theorem pullRequest_notOpen_idempotent (w : WorkerSettings) (now now2 : Int)
    (cfg : ConfigV1) (details : PullRequestDetails) (o o2 : RemoteOracles)
    (h : details.state ≠ "OPEN") :
    runLogic w now cfg details o = ⟨.notOpen, []⟩ ∧
    runLogic w now2 cfg details o2 = runLogic w now cfg details o := by
  have h1 : runLogic w now cfg details o = ⟨.notOpen, []⟩ := by
    unfold runLogic
    rw [if_pos h]
  have h2 : runLogic w now2 cfg details o2 = ⟨.notOpen, []⟩ := by
    unfold runLogic
    rw [if_pos h]
  exact ⟨h1, h2.trans h1.symm⟩

theorem pullRequest_notOpen_idempotent_witness :
    runLogic w0 0 updateCfg mergedPR allOk = ⟨.notOpen, []⟩ ∧
    runLogic w0 5 updateCfg mergedPR ⟨.gqlErrors "boom", .ok, false⟩ =
      runLogic w0 0 updateCfg mergedPR allOk :=
  pullRequest_notOpen_idempotent w0 0 5 updateCfg mergedPR allOk
    ⟨.gqlErrors "boom", .ok, false⟩ (by decide)

end MergeWithLabel
